import Mathlib

/-!
Verification development for the nova-cognition configuration-sync and
messaging core.

The definitions below are a shallow embedding of the TypeScript module
`agent-config-sync/src/sync.ts` (types `AgentRow`, `SystemConfigRow`,
functions `buildSystemDefaults`, `buildAgentsJson`, `writeAgentsJsonAtomically`,
`syncAgentsConfig`), of the documented SQL polling query of the inter-agent
communication protocol, and of the documented job-completion snippet of the
jobs-system protocol.  JavaScript strings are modelled as Lean `String`,
JavaScript numbers arising from `parseInt` as `Int`, nullable columns as
`Option`, and JS object key presence as `Option` fields.  The file system is
modelled as a map from paths to optional file contents.
-/

namespace NovaCognition

/-- One row of the `agents` table, as selected by `AGENTS_QUERY`
(columns `name, model, fallback_models, thinking, instance_type,
allowed_subagents`). -/
structure AgentRow where
  name : String
  model : String
  fallback_models : Option (List String)
  thinking : Option String
  instance_type : String
  allowed_subagents : Option (List String)
deriving DecidableEq, Repr

/-- One row of the `agent_system_config` table (`key, value, value_type`). -/
structure SystemConfigRow where
  key : String
  value : String
  value_type : String
deriving DecidableEq, Repr

/-- The `SystemDefaults` object built by `buildSystemDefaults`; absent JS
object properties are `none`. -/
structure SystemDefaults where
  maxSpawnDepth : Option Int := none
  maxConcurrent : Option Int := none
deriving DecidableEq, Repr

/-- JavaScript whitespace characters skipped by `parseInt`. -/
def isJsWhitespace (c : Char) : Bool :=
  c = ' ' || c = '\t' || c = '\n' || c = '\r' ||
  c = Char.ofNat 11 || c = Char.ofNat 12

/-- Numeric value of a list of decimal digit characters. -/
def digitsToNat (ds : List Char) : Nat :=
  ds.foldl (fun acc c => acc * 10 + (c.toNat - Char.toNat '0')) 0

/-- Shallow embedding of JavaScript `parseInt(s, 10)`: skip leading
whitespace, read an optional sign, then the longest prefix of decimal
digits; `none` models the `NaN` result when no digit is found.  Trailing
garbage is ignored, as in JS. -/
def parseIntJs (s : String) : Option Int :=
  let cs := s.data.dropWhile isJsWhitespace
  let signAndRest : Int × List Char :=
    match cs with
    | '-' :: t => (-1, t)
    | '+' :: t => (1, t)
    | _ => (1, cs)
  let digits := signAndRest.2.takeWhile Char.isDigit
  if digits.isEmpty then none
  else some (signAndRest.1 * (digitsToNat digits : Int))

/-- The body of the `for` loop of `buildSystemDefaults`, acting on the
accumulated defaults: whitelisted key dispatch, `value_type` check,
`parseInt` with `NaN` check, and for `max_spawn_depth` the clamp
`Math.max(1, Math.min(5, parsed))`. -/
def processConfigRow (d : SystemDefaults) (row : SystemConfigRow) : SystemDefaults :=
  if row.key = "max_spawn_depth" then
    if row.value_type ≠ "integer" then d
    else
      match parseIntJs row.value with
      | none => d
      | some parsed => { d with maxSpawnDepth := some (max 1 (min 5 parsed)) }
  else if row.key = "max_concurrent_subagents" then
    if row.value_type ≠ "integer" then d
    else
      match parseIntJs row.value with
      | none => d
      | some parsed => { d with maxConcurrent := some parsed }
  else d

/-- Shallow embedding of `buildSystemDefaults`: fold the loop body over the
rows, starting from the empty defaults object.  The function is total, which
models the source's guarantee of never throwing (every inner failure path
just skips the row). -/
def buildSystemDefaults (rows : List SystemConfigRow) : SystemDefaults :=
  rows.foldl processConfigRow {}

/-- Lexicographic string comparison by character code, as JS default
`.sort()` compares strings (code points and UTF-16 code units agree on the
orderings the repository uses). -/
def strLe (a b : String) : Bool := decide (a.data ≤ b.data)

/-- Insertion of an element into a list, in front of the first element it
compares `le` to: the insertion step of a stable sort. -/
def insertSortedBy (le : α → α → Bool) (x : α) : List α → List α
  | [] => [x]
  | y :: ys => if le x y then x :: y :: ys else y :: insertSortedBy le x ys

/-- Stable comparison sort (insertion sort), modelling JS `Array.sort`
with comparator `le`. -/
def sortListBy (le : α → α → Bool) : List α → List α
  | [] => []
  | x :: xs => insertSortedBy le x (sortListBy le xs)

/-- JS `[...strings].sort()` (default lexicographic comparison). -/
def sortStrings (l : List String) : List String :=
  sortListBy strLe l

/-- JS `Set.add`: append the element unless already present (insertion
order preserved, duplicates collapsed). -/
def setAdd (l : List String) (x : String) : List String :=
  if x ∈ l then l else l ++ [x]

/-- The `hasFallbacks` test of the loop in `buildAgentsJson`:
`Array.isArray(row.fallback_models) && row.fallback_models.length > 0`. -/
def rowHasFallbacks (row : AgentRow) : Bool :=
  match row.fallback_models with
  | some l => decide (0 < l.length)
  | none => false

/-- The model identities one loop iteration inserts into the `allModels`
set: the primary model, then each fallback when `hasFallbacks` holds. -/
def rowModels (row : AgentRow) : List String :=
  row.model :: (if rowHasFallbacks row then row.fallback_models.getD [] else [])

/-- The `allModels : Set<string>` accumulated over the agent rows loop of
`buildAgentsJson`, in insertion order. -/
def collectAllModels (rows : List AgentRow) : List String :=
  rows.foldl (fun acc row => (rowModels row).foldl setAdd acc) []

/-- The `model` field of an `AgentListEntry`: either a bare model identity
or the structured pair with primary and fallbacks. -/
inductive ModelField where
  | bare (model : String)
  | structured (primary : String) (fallbacks : List String)
deriving DecidableEq, Repr

/-- The `subagents` object of an `AgentListEntry`. -/
structure SubagentsEntry where
  allowAgents : List String
deriving DecidableEq, Repr

/-- One element of `agents.list` in the published document.  The TS type
declares an optional `thinking` property; the builder never assigns it. -/
structure AgentListEntry where
  id : String
  model : ModelField
  thinking : Option String
  subagents : Option SubagentsEntry
deriving DecidableEq, Repr

/-- The `agents.defaults.subagents` block of the published document. -/
structure SubagentsBlock where
  maxSpawnDepth : Option Int
  maxConcurrent : Option Int
deriving DecidableEq, Repr

/-- The `agents.defaults` section: the model allow-list (an object whose
values are all empty objects, modelled by its key list in insertion order)
and the optional `subagents` block. -/
structure AgentsDefaults where
  models : List String
  subagents : Option SubagentsBlock
deriving DecidableEq, Repr

/-- The full `AgentsJson` document (the single top-level `agents` object). -/
structure AgentsJson where
  defaultsSection : AgentsDefaults
  list : List AgentListEntry
deriving DecidableEq, Repr

/-- Construction of one `AgentListEntry` from its row (the body of the
rows loop of `buildAgentsJson`): `id`, the bare/structured `model` shape,
no `thinking` assignment, and `subagents.allowAgents` only for a non-empty
`allowed_subagents` array (copied and sorted). -/
def buildEntry (row : AgentRow) : AgentListEntry :=
  { id := row.name
    model :=
      if rowHasFallbacks row then
        ModelField.structured row.model (row.fallback_models.getD [])
      else
        ModelField.bare row.model
    thinking := none
    subagents :=
      match row.allowed_subagents with
      | some l => if 0 < l.length then some ⟨sortStrings l⟩ else none
      | none => none }

/-- Shallow embedding of `buildAgentsJson(rows, systemDefaults?)`: the
sorted model allow-list, the per-row entry list in row order, and the
`defaults.subagents` block included only when the optional `systemDefaults`
argument is present and carries at least one value. -/
def buildAgentsJson (rows : List AgentRow) (systemDefaults : Option SystemDefaults) :
    AgentsJson :=
  let models := sortStrings (collectAllModels rows)
  let list := rows.map buildEntry
  let subagentsBlock : Option SubagentsBlock :=
    match systemDefaults with
    | none => none
    | some sd =>
      if sd.maxSpawnDepth.isSome || sd.maxConcurrent.isSome then
        some ⟨sd.maxSpawnDepth, sd.maxConcurrent⟩
      else none
  { defaultsSection := { models := models, subagents := subagentsBlock }
    list := list }

/-- Hexadecimal digit character, as produced by JS string escaping. -/
def hexDigit (n : Nat) : Char :=
  if n < 10 then Char.ofNat (Char.toNat '0' + n)
  else Char.ofNat (Char.toNat 'a' + (n - 10))

/-- Escape of one character as performed by `JSON.stringify` inside string
literals. -/
def escapeJsonChar (c : Char) : String :=
  if c = '"' then "\\\""
  else if c = '\\' then "\\\\"
  else if c = Char.ofNat 8 then "\\b"
  else if c = '\t' then "\\t"
  else if c = '\n' then "\\n"
  else if c = Char.ofNat 12 then "\\f"
  else if c = '\r' then "\\r"
  else if c.toNat < 32 then
    "\\u00" ++ String.mk [hexDigit (c.toNat / 16), hexDigit (c.toNat % 16)]
  else String.singleton c

/-- A JSON string literal: quotes around the escaped characters. -/
def jsonQuote (s : String) : String :=
  "\"" ++ String.join (s.data.map escapeJsonChar) ++ "\""

/-- A run of `n` spaces, as produced by `JSON.stringify(_, null, 2)`
indentation. -/
def spaces (n : Nat) : String :=
  String.mk (List.replicate n ' ')

/-- A JSON array of strings whose opening bracket sits at indentation
`ind`, rendered as `JSON.stringify(_, null, 2)` renders it: empty arrays
inline, otherwise one element per line indented two further. -/
def renderStrArr (l : List String) (ind : Nat) : String :=
  if l.isEmpty then "[]"
  else
    "[\n" ++
    String.intercalate ",\n" (l.map (fun s => spaces (ind + 2) ++ jsonQuote s)) ++
    "\n" ++ spaces ind ++ "]"

/-- The `models` allow-list object (keys at indentation 8, each value the
empty object), as serialized inside `agents.defaults`. -/
def renderModels (keys : List String) : String :=
  if keys.isEmpty then "\x7b\x7d"
  else
    "\x7b\n" ++
    String.intercalate ",\n"
      (keys.map (fun k => spaces 8 ++ jsonQuote k ++ ": \x7b\x7d")) ++
    "\n" ++ spaces 6 ++ "\x7d"

/-- The `defaults.subagents` block as serialized (keys at indentation 8). -/
def renderSubagentsBlock (b : SubagentsBlock) : String :=
  let fields :=
    (match b.maxSpawnDepth with
     | some n => [spaces 8 ++ jsonQuote "maxSpawnDepth" ++ ": " ++ toString n]
     | none => []) ++
    (match b.maxConcurrent with
     | some n => [spaces 8 ++ jsonQuote "maxConcurrent" ++ ": " ++ toString n]
     | none => [])
  if fields.isEmpty then "\x7b\x7d"
  else "\x7b\n" ++ String.intercalate ",\n" fields ++ "\n" ++ spaces 6 ++ "\x7d"

/-- The `model` field value of a list entry: a bare JSON string, or the
structured object with `primary` and `fallbacks` (keys at indentation 10). -/
def renderModelField : ModelField → String
  | ModelField.bare m => jsonQuote m
  | ModelField.structured p fbs =>
    "\x7b\n" ++
    spaces 10 ++ jsonQuote "primary" ++ ": " ++ jsonQuote p ++ ",\n" ++
    spaces 10 ++ jsonQuote "fallbacks" ++ ": " ++ renderStrArr fbs 10 ++
    "\n" ++ spaces 8 ++ "\x7d"

/-- One element of `agents.list` as serialized (the element brace at
indentation 6, keys at 8); `thinking` and `subagents` appear only when the
properties are present, matching `JSON.stringify` on optional properties. -/
def renderEntry (e : AgentListEntry) : String :=
  spaces 6 ++ "\x7b\n" ++
  spaces 8 ++ jsonQuote "id" ++ ": " ++ jsonQuote e.id ++ ",\n" ++
  spaces 8 ++ jsonQuote "model" ++ ": " ++ renderModelField e.model ++
  (match e.thinking with
   | some t => ",\n" ++ spaces 8 ++ jsonQuote "thinking" ++ ": " ++ jsonQuote t
   | none => "") ++
  (match e.subagents with
   | some sa =>
     ",\n" ++ spaces 8 ++ jsonQuote "subagents" ++ ": \x7b\n" ++
     spaces 10 ++ jsonQuote "allowAgents" ++ ": " ++
     renderStrArr sa.allowAgents 10 ++ "\n" ++ spaces 8 ++ "\x7d"
   | none => "") ++
  "\n" ++ spaces 6 ++ "\x7d"

/-- The `agents.list` array as serialized (bracket at indentation 4). -/
def renderList (l : List AgentListEntry) : String :=
  if l.isEmpty then "[]"
  else
    "[\n" ++ String.intercalate ",\n" (l.map renderEntry) ++
    "\n" ++ spaces 4 ++ "]"

/-- Shallow embedding of `JSON.stringify(data, null, 2)` on the fixed
`AgentsJson` document shape. -/
def serializeAgentsJson (doc : AgentsJson) : String :=
  "\x7b\n" ++
  spaces 2 ++ jsonQuote "agents" ++ ": \x7b\n" ++
  spaces 4 ++ jsonQuote "defaults" ++ ": \x7b\n" ++
  spaces 6 ++ jsonQuote "models" ++ ": " ++
  renderModels doc.defaultsSection.models ++
  (match doc.defaultsSection.subagents with
   | some b => ",\n" ++ spaces 6 ++ jsonQuote "subagents" ++ ": " ++
       renderSubagentsBlock b
   | none => "") ++
  "\n" ++ spaces 4 ++ "\x7d,\n" ++
  spaces 4 ++ jsonQuote "list" ++ ": " ++ renderList doc.list ++
  "\n" ++ spaces 2 ++ "\x7d\n\x7d"

/-- The byte content handed to the writer: the serialized document plus the
trailing newline (`JSON.stringify(data, null, 2) + "\n"`). -/
def serializedContent (doc : AgentsJson) : String :=
  serializeAgentsJson doc ++ "\n"

/-- A file-system path, as the pair produced by `path.dirname` and
`path.basename`; `path.join(dir, name)` is `⟨dir, name⟩`. -/
structure PathName where
  dir : String
  base : String
deriving DecidableEq

/-- The file system visible to the publisher: each path either holds a file
with its byte content or no file. -/
def Fs : Type := PathName → Option String

/-- Effect of `fs.promises.mkdir(dir, recursive)` on file contents: none
(it only creates directories, which the model does not track). -/
def mkdirFs (fs : Fs) : Fs := fs

/-- Effect of `fs.promises.writeFile(p, c)`: the path `p` now holds `c`,
every other path is untouched. -/
def writeFileFs (fs : Fs) (p : PathName) (c : String) : Fs :=
  fun q => if q = p then some c else fs q

/-- Effect of `fs.promises.rename(src, dst)`: atomic — `dst` now holds what
`src` held, `src` is gone, every other path is untouched. -/
def renameFs (fs : Fs) (src dst : PathName) : Fs :=
  fun q => if q = dst then fs src else if q = src then none else fs q

/-- The temporary path chosen by `writeAgentsJsonAtomically`:
`path.join(dir, basename + "." + crypto.randomUUID() + ".tmp")`. -/
def tmpFileFor (filePath : PathName) (uuid : String) : PathName :=
  ⟨filePath.dir, filePath.base ++ "." ++ uuid ++ ".tmp"⟩

/-- Where a run of `writeAgentsJsonAtomically` stops: an I/O failure during
`mkdir`; a failure during the temp-file write (the temp file is then either
absent or holds some partial byte string, never the target); or the
`rename` was performed. -/
inductive PublishOutcome where
  | failMkdir : PublishOutcome
  | failWrite : Option String → PublishOutcome
  | renamed : PublishOutcome
deriving DecidableEq

/-- Shallow embedding of `writeAgentsJsonAtomically(filePath, data)` as the
file-system transformer determined by how far the run got: `mkdir`, then
`writeFile` of the serialized content to the temp path, then `rename` of
the temp path onto the target. -/
def writeAgentsJsonAtomically (fs : Fs) (filePath : PathName) (uuid : String)
    (data : AgentsJson) : PublishOutcome → Fs
  | PublishOutcome.failMkdir => fs
  | PublishOutcome.failWrite none => mkdirFs fs
  | PublishOutcome.failWrite (some part) =>
    writeFileFs (mkdirFs fs) (tmpFileFor filePath uuid) part
  | PublishOutcome.renamed =>
    renameFs
      (writeFileFs (mkdirFs fs) (tmpFileFor filePath uuid)
        (serializedContent data))
      (tmpFileFor filePath uuid) filePath

/-- The `newContent` string `syncAgentsConfig` computes for the current
database state (agent rows and system-config rows). -/
def newContentOf (agentRows : List AgentRow) (cfgRows : List SystemConfigRow) :
    String :=
  serializedContent (buildAgentsJson agentRows (some (buildSystemDefaults cfgRows)))

/-- Shallow embedding of `syncAgentsConfig`: build the document from the
database rows, compare the serialization byte-for-byte against the existing
file content (`none` models an unreadable/absent file, whose read failure
falls through to the write), and either skip the write returning `false` or
write the new content returning `true`.  The second component is the
resulting content of the output path. -/
def syncAgentsConfig (agentRows : List AgentRow) (cfgRows : List SystemConfigRow)
    (existing : Option String) : Bool × Option String :=
  let newContent := newContentOf agentRows cfgRows
  match existing with
  | some e => if e = newContent then (false, some e) else (true, some newContent)
  | none => (true, some newContent)

/-- One row of the `agent_chat` table, with the columns the polling query
selects and filters on. -/
structure ChatRow where
  id : Nat
  sender : String
  message : String
  mentions : List String
  created_at : Nat
deriving DecidableEq, Repr

/-- Shallow embedding of the documented polling query:
`SELECT ... FROM agent_chat WHERE mentions @> ARRAY[recipient] AND
id > last_processed_id ORDER BY created_at` — array containment of a
singleton is membership, and the result is sorted by `created_at`. -/
def listPending (table : List ChatRow) (recipient : String) (sinceId : Nat) :
    List ChatRow :=
  sortListBy (fun a b => decide (a.created_at ≤ b.created_at))
    (table.filter (fun m => decide (recipient ∈ m.mentions) && decide (sinceId < m.id)))

/-- One row of the `agent_jobs` table, restricted to the columns the
completion snippet touches. -/
structure JobRow where
  id : Nat
  agent_name : String
  status : String
  notify_agents : Option (List String)
  deliverable_path : Option String
  deliverable_summary : Option String
deriving DecidableEq, Repr

/-- A row inserted into `agent_chat` by the completion notification. -/
structure ChatInsert where
  sender : String
  message : String
  mentions : List String
deriving DecidableEq, Repr

/-- The database state the jobs-completion snippet reads and writes. -/
structure JobsState where
  jobs : List JobRow
  chat : List ChatInsert
deriving DecidableEq, Repr

/-- Shallow embedding of the documented On-Completion snippet: the
unconditional `UPDATE agent_jobs SET status = completed, ... WHERE id = $1
AND agent_name = $2`, followed by — whenever the job's `notify_agents`
array is non-empty — one `INSERT INTO agent_chat (sender, message,
mentions)` carrying the whole notify list. -/
def completeJob (st : JobsState) (jobId : Nat) (agentName : String)
    (deliverablePath deliverableSummary : Option String)
    (completionMessage : String) : JobsState :=
  let jobs' := st.jobs.map fun j =>
    if j.id = jobId ∧ j.agent_name = agentName then
      { j with
          status := "completed"
          deliverable_path := deliverablePath
          deliverable_summary := deliverableSummary }
    else j
  let inserts : List ChatInsert :=
    match st.jobs.find? (fun j => decide (j.id = jobId)) with
    | some job =>
      match job.notify_agents with
      | some l =>
        if 0 < l.length then [⟨agentName, completionMessage, l⟩] else []
      | none => []
    | none => []
  ⟨jobs', st.chat ++ inserts⟩

/-- A system-config row that `buildSystemDefaults` does not act on: its key
is outside the recognized whitelist, or its `value_type` is not the
expected `integer`, or its value does not parse as an integer. -/
def badConfigRow (row : SystemConfigRow) : Prop :=
  (row.key ≠ "max_spawn_depth" ∧ row.key ≠ "max_concurrent_subagents") ∨
  row.value_type ≠ "integer" ∨ parseIntJs row.value = none

theorem strLe_iff_le (a b : String) : strLe a b = true ↔ a ≤ b := by
  simp [strLe, String.le_iff_toList_le, String.toList]

theorem strLe_total (a b : String) : strLe a b = true ∨ strLe b a = true := by
  rcases le_total a b with h | h
  · exact Or.inl ((strLe_iff_le a b).mpr h)
  · exact Or.inr ((strLe_iff_le b a).mpr h)

theorem strLe_trans (a b c : String) (h1 : strLe a b = true) (h2 : strLe b c = true) :
    strLe a c = true :=
  (strLe_iff_le a c).mpr (le_trans ((strLe_iff_le a b).mp h1) ((strLe_iff_le b c).mp h2))

theorem mem_insertSortedBy {α : Type} (le : α → α → Bool) (x a : α) :
    ∀ l : List α, (a ∈ insertSortedBy le x l ↔ a = x ∨ a ∈ l)
  | [] => by simp [insertSortedBy]
  | y :: ys => by
    by_cases h : le x y = true
    · simp [insertSortedBy, h]
    · simp only [insertSortedBy, if_neg h, List.mem_cons, mem_insertSortedBy le x a ys]
      tauto

theorem mem_sortListBy {α : Type} (le : α → α → Bool) (a : α) :
    ∀ l : List α, (a ∈ sortListBy le l ↔ a ∈ l)
  | [] => Iff.rfl
  | y :: ys => by
    simp only [sortListBy, mem_insertSortedBy, List.mem_cons, mem_sortListBy le a ys]

theorem pairwise_insertSortedBy {α : Type} (le : α → α → Bool)
    (htrans : ∀ a b c, le a b = true → le b c = true → le a c = true)
    (htot : ∀ a b, le a b = true ∨ le b a = true) (x : α) :
    ∀ l : List α, List.Pairwise (fun a b => le a b = true) l →
      List.Pairwise (fun a b => le a b = true) (insertSortedBy le x l)
  | [], _ => by simp [insertSortedBy]
  | y :: ys, h => by
    rw [List.pairwise_cons] at h
    by_cases hxy : le x y = true
    · rw [insertSortedBy, if_pos hxy, List.pairwise_cons]
      refine ⟨?_, List.pairwise_cons.mpr h⟩
      intro z hz
      rcases List.mem_cons.mp hz with rfl | hz2
      · exact hxy
      · exact htrans x y z hxy (h.1 z hz2)
    · rw [insertSortedBy, if_neg hxy, List.pairwise_cons]
      have hyx : le y x = true := (htot x y).resolve_left hxy
      refine ⟨?_, pairwise_insertSortedBy le htrans htot x ys h.2⟩
      intro z hz
      rcases (mem_insertSortedBy le x z ys).mp hz with rfl | hz2
      · exact hyx
      · exact h.1 z hz2

theorem pairwise_sortListBy {α : Type} (le : α → α → Bool)
    (htrans : ∀ a b c, le a b = true → le b c = true → le a c = true)
    (htot : ∀ a b, le a b = true ∨ le b a = true) :
    ∀ l : List α, List.Pairwise (fun a b => le a b = true) (sortListBy le l)
  | [] => List.Pairwise.nil
  | y :: ys =>
    pairwise_insertSortedBy le htrans htot y (sortListBy le ys)
      (pairwise_sortListBy le htrans htot ys)

theorem mem_sortStrings (a : String) (l : List String) :
    a ∈ sortStrings l ↔ a ∈ l :=
  mem_sortListBy strLe a l

theorem pairwise_sortStrings (l : List String) :
    List.Pairwise (fun a b : String => a ≤ b) (sortStrings l) :=
  (pairwise_sortListBy strLe strLe_trans strLe_total l).imp
    (fun h => (strLe_iff_le _ _).mp h)

theorem mem_setAdd (l : List String) (x a : String) :
    a ∈ setAdd l x ↔ a ∈ l ∨ a = x := by
  by_cases h : x ∈ l
  · simp only [setAdd, if_pos h]
    constructor
    · exact Or.inl
    · rintro (ha | rfl)
      · exact ha
      · exact h
  · simp [setAdd, if_neg h]

theorem mem_foldl_setAdd (a : String) :
    ∀ (ds : List String) (acc : List String),
      a ∈ ds.foldl setAdd acc ↔ a ∈ acc ∨ a ∈ ds
  | [], acc => by simp
  | d :: ds, acc => by
    rw [List.foldl_cons, mem_foldl_setAdd a ds (setAdd acc d), mem_setAdd]
    simp only [List.mem_cons]
    tauto

theorem mem_rowModels (a : String) (row : AgentRow) :
    a ∈ rowModels row ↔ a = row.model ∨ a ∈ row.fallback_models.getD [] := by
  rcases hfb : row.fallback_models with _ | l
  · simp [rowModels, rowHasFallbacks, hfb]
  · rcases l with _ | ⟨b, bs⟩
    · simp [rowModels, rowHasFallbacks, hfb]
    · simp [rowModels, rowHasFallbacks, hfb]

theorem mem_collectAllModels_aux (a : String) :
    ∀ (rows : List AgentRow) (acc : List String),
      a ∈ rows.foldl (fun acc row => (rowModels row).foldl setAdd acc) acc ↔
        a ∈ acc ∨ ∃ r ∈ rows, a ∈ rowModels r
  | [], acc => by simp
  | row :: rows, acc => by
    rw [List.foldl_cons, mem_collectAllModels_aux a rows, mem_foldl_setAdd]
    simp only [List.mem_cons]
    constructor
    · rintro (⟨ha | ha⟩ | ⟨r, hr, ha⟩)
      · exact Or.inl ha
      · exact Or.inr ⟨row, Or.inl rfl, ha⟩
      · exact Or.inr ⟨r, Or.inr hr, ha⟩
    · rintro (ha | ⟨r, rfl | hr, ha⟩)
      · exact Or.inl (Or.inl ha)
      · exact Or.inl (Or.inr ha)
      · exact Or.inr ⟨r, hr, ha⟩

theorem mem_collectAllModels (a : String) (rows : List AgentRow) :
    a ∈ collectAllModels rows ↔ ∃ r ∈ rows, a ∈ rowModels r := by
  rw [collectAllModels, mem_collectAllModels_aux]
  simp

theorem processConfigRow_bad (d : SystemDefaults) (row : SystemConfigRow)
    (hbad : badConfigRow row) : processConfigRow d row = d := by
  rcases hbad with ⟨h1, h2⟩ | h | h
  · simp [processConfigRow, h1, h2]
  · by_cases hk : row.key = "max_spawn_depth"
    · simp [processConfigRow, hk, h]
    · by_cases hk2 : row.key = "max_concurrent_subagents"
      · simp [processConfigRow, hk, hk2, h]
      · simp [processConfigRow, hk, hk2]
  · by_cases hk : row.key = "max_spawn_depth"
    · by_cases ht : row.value_type = "integer"
      · simp [processConfigRow, hk, ht, h]
      · simp [processConfigRow, hk, ht]
    · by_cases hk2 : row.key = "max_concurrent_subagents"
      · by_cases ht : row.value_type = "integer"
        · simp [processConfigRow, hk, hk2, ht, h]
        · simp [processConfigRow, hk, hk2, ht]
      · simp [processConfigRow, hk, hk2]

theorem tmpFileFor_dir (filePath : PathName) (uuid : String) :
    (tmpFileFor filePath uuid).dir = filePath.dir := rfl

theorem tmpFileFor_ne (filePath : PathName) (uuid : String) :
    tmpFileFor filePath uuid ≠ filePath := by
  intro h
  have hbase : filePath.base ++ "." ++ uuid ++ ".tmp" = filePath.base :=
    congrArg PathName.base h
  have hlen := congrArg String.length hbase
  have hdot : (("." : String)).length = 1 := by decide
  have htmp : ((".tmp" : String)).length = 4 := by decide
  rw [String.length_append, String.length_append, String.length_append, hdot, htmp] at hlen
  omega

theorem tmpFileFor_inj (filePath : PathName) (u1 u2 : String)
    (h : tmpFileFor filePath u1 = tmpFileFor filePath u2) : u1 = u2 := by
  have hbase : filePath.base ++ "." ++ u1 ++ ".tmp" = filePath.base ++ "." ++ u2 ++ ".tmp" :=
    congrArg PathName.base h
  have hd := congrArg String.data hbase
  simp only [String.data_append] at hd
  rw [List.append_assoc, List.append_assoc,
      List.append_assoc, List.append_assoc] at hd
  have hd2 := List.append_cancel_left (List.append_cancel_left hd)
  exact String.ext (List.append_cancel_right hd2)

/-- Claim C1: the publisher writes the full serialized content to a
uniquely-named temporary file in the same directory as the target path and
then renames it onto the target; any I/O failure before the rename leaves
the target path's content unchanged, and the successful rename leaves the
target holding exactly the serialized content with the temporary file
gone. -/
theorem publish_atomic (fs : Fs) (filePath : PathName) (uuid uuid2 : String)
    (data : AgentsJson) (outcome : PublishOutcome) :
    (tmpFileFor filePath uuid).dir = filePath.dir ∧
    tmpFileFor filePath uuid ≠ filePath ∧
    (uuid ≠ uuid2 → tmpFileFor filePath uuid ≠ tmpFileFor filePath uuid2) ∧
    (outcome ≠ PublishOutcome.renamed →
      writeAgentsJsonAtomically fs filePath uuid data outcome filePath = fs filePath) ∧
    writeAgentsJsonAtomically fs filePath uuid data PublishOutcome.renamed filePath =
      some (serializedContent data) ∧
    writeAgentsJsonAtomically fs filePath uuid data PublishOutcome.renamed
      (tmpFileFor filePath uuid) = none := by
  have hne := Ne.symm (tmpFileFor_ne filePath uuid)
  refine ⟨rfl, tmpFileFor_ne filePath uuid, ?_, ?_, ?_, ?_⟩
  · intro huu h
    exact huu (tmpFileFor_inj filePath uuid uuid2 h)
  · intro hout
    cases outcome with
    | failMkdir => rfl
    | failWrite part =>
      cases part with
      | none => rfl
      | some s => simp [writeAgentsJsonAtomically, writeFileFs, mkdirFs, hne]
    | renamed => exact absurd rfl hout
  · simp [writeAgentsJsonAtomically, renameFs, writeFileFs, mkdirFs]
  · simp [writeAgentsJsonAtomically, renameFs, writeFileFs, mkdirFs,
      tmpFileFor_ne filePath uuid]

/-- Witness for C1: a concrete failed run (temp write failure after a
partial write) leaves the absent target still absent. -/
theorem publish_atomic_witness :
    writeAgentsJsonAtomically (fun _ => none) ⟨"/home/user/.openclaw", "agents.json"⟩
      "1111-aaaa" (buildAgentsJson [] none) (PublishOutcome.failWrite (some "par"))
      ⟨"/home/user/.openclaw", "agents.json"⟩ = none :=
  (publish_atomic (fun _ => none) ⟨"/home/user/.openclaw", "agents.json"⟩
      "1111-aaaa" "2222-bbbb" (buildAgentsJson [] none)
      (PublishOutcome.failWrite (some "par"))).2.2.2.1 (by decide)

/-- Claim C2, counterexample: on agent rows that are not sorted by name,
the list emitted by buildAgentsJson is in input order, not sorted by agent
identity. -/
theorem build_list_unsorted_counterexample :
    ¬ List.Pairwise (fun a b : AgentListEntry => a.id ≤ b.id)
      ((buildAgentsJson [⟨"b", "m", none, none, "primary", none⟩,
        ⟨"a", "m", none, none, "primary", none⟩] none).list) := by
  intro h
  simp only [buildAgentsJson, List.map, buildEntry] at h
  rw [List.pairwise_cons] at h
  have hba : ("b" : String) ≤ "a" := h.1 _ (List.mem_singleton.mpr rfl)
  exact absurd ((strLe_iff_le "b" "a").mpr hba) (by decide)

/-- Claim C2 (amended): buildAgentsJson emits the model allow-list keys
sorted lexicographically and every per-agent subagent allow-list sorted;
the agent list itself is emitted in input row order — so it is sorted by
agent identity exactly when the input rows arrive sorted by name, which
the agents SQL query guarantees via ORDER BY name. -/
theorem build_output_ordering (rows : List AgentRow) (sd : Option SystemDefaults) :
    List.Pairwise (fun a b : String => a ≤ b)
      (buildAgentsJson rows sd).defaultsSection.models ∧
    (∀ e ∈ (buildAgentsJson rows sd).list, ∀ sa, e.subagents = some sa →
      List.Pairwise (fun a b : String => a ≤ b) sa.allowAgents) ∧
    (buildAgentsJson rows sd).list.map AgentListEntry.id = rows.map AgentRow.name ∧
    (List.Pairwise (fun r s : AgentRow => r.name ≤ s.name) rows →
      List.Pairwise (fun a b : AgentListEntry => a.id ≤ b.id)
        (buildAgentsJson rows sd).list) := by
  refine ⟨pairwise_sortStrings _, ?_, ?_, ?_⟩
  · intro e he sa hsa
    have hl : (buildAgentsJson rows sd).list = rows.map buildEntry := rfl
    rw [hl, List.mem_map] at he
    obtain ⟨r, _, rfl⟩ := he
    rcases hfb : r.allowed_subagents with _ | l
    · rw [show (buildEntry r).subagents =
        (match r.allowed_subagents with
         | some l => if 0 < l.length then some ⟨sortStrings l⟩ else none
         | none => none) from rfl, hfb] at hsa
      exact absurd hsa (by simp)
    · rw [show (buildEntry r).subagents =
        (match r.allowed_subagents with
         | some l => if 0 < l.length then some ⟨sortStrings l⟩ else none
         | none => none) from rfl, hfb] at hsa
      change (if 0 < l.length then some ⟨sortStrings l⟩ else none) = some sa at hsa
      by_cases hlen : 0 < l.length
      · rw [if_pos hlen] at hsa
        cases hsa
        exact pairwise_sortStrings l
      · rw [if_neg hlen] at hsa
        exact absurd hsa (by simp)
  · rw [show (buildAgentsJson rows sd).list = rows.map buildEntry from rfl,
      List.map_map]
    rfl
  · intro h
    rw [show (buildAgentsJson rows sd).list = rows.map buildEntry from rfl,
      List.pairwise_map]
    exact h.imp (fun hx => hx)

/-- Witness for C2 (amended): on the spec's two sorted rows the emitted
agent list is sorted by identity. -/
theorem build_output_ordering_witness :
    List.Pairwise (fun a b : AgentListEntry => a.id ≤ b.id)
      (buildAgentsJson [⟨"coder", "m1", some ["m2"], none, "primary", none⟩,
        ⟨"scout", "m3", none, none, "primary", none⟩] none).list :=
  (build_output_ordering _ none).2.2.2 (by
    refine List.pairwise_cons.mpr ⟨?_, by simp⟩
    intro s hs
    rw [List.mem_singleton] at hs
    subst hs
    exact (strLe_iff_le "coder" "scout").mp (by decide))

/-- Claim C3: each emitted entry's model field is the bare model string
when fallback_models is null or empty and the structured primary/fallbacks
pair when it is present and non-empty; the model allow-list is the sorted
union of every primary model and all fallback models. -/
theorem model_field_shape (rows : List AgentRow) (sd : Option SystemDefaults) :
    (buildAgentsJson rows sd).list = rows.map buildEntry ∧
    (∀ row ∈ rows,
      ((row.fallback_models = none ∨ row.fallback_models = some ([] : List String)) →
        (buildEntry row).model = ModelField.bare row.model) ∧
      (∀ l, row.fallback_models = some l → l ≠ [] →
        (buildEntry row).model = ModelField.structured row.model l)) ∧
    (∀ m : String, m ∈ (buildAgentsJson rows sd).defaultsSection.models ↔
      ((∃ r ∈ rows, m = r.model) ∨ (∃ r ∈ rows, m ∈ r.fallback_models.getD []))) ∧
    List.Pairwise (fun a b : String => a ≤ b)
      (buildAgentsJson rows sd).defaultsSection.models := by
  refine ⟨rfl, ?_, ?_, pairwise_sortStrings _⟩
  · intro row _
    constructor
    · intro hfb
      rcases hfb with hfb | hfb <;>
        simp [buildEntry, rowHasFallbacks, hfb]
    · intro l hfb hl
      have hlen : 0 < l.length := List.length_pos.mpr hl
      simp [buildEntry, rowHasFallbacks, hfb, hlen]
  · intro m
    rw [show (buildAgentsJson rows sd).defaultsSection.models =
      sortStrings (collectAllModels rows) from rfl, mem_sortStrings,
      mem_collectAllModels]
    constructor
    · rintro ⟨r, hr, hm⟩
      rcases (mem_rowModels m r).mp hm with h | h
      · exact Or.inl ⟨r, hr, h⟩
      · exact Or.inr ⟨r, hr, h⟩
    · rintro (⟨r, hr, hm⟩ | ⟨r, hr, hm⟩)
      · exact ⟨r, hr, (mem_rowModels m r).mpr (Or.inl hm)⟩
      · exact ⟨r, hr, (mem_rowModels m r).mpr (Or.inr hm)⟩

/-- Witness for C3: the spec scenario — coder gets a structured model,
scout a bare one, and a fallback model appears in the allow-list. -/
theorem model_field_shape_witness :
    (buildEntry ⟨"coder", "m1", some ["m2"], none, "primary", none⟩).model =
      ModelField.structured "m1" ["m2"] ∧
    (buildEntry ⟨"scout", "m3", none, none, "primary", none⟩).model =
      ModelField.bare "m3" ∧
    "m2" ∈ (buildAgentsJson [⟨"coder", "m1", some ["m2"], none, "primary", none⟩,
      ⟨"scout", "m3", none, none, "primary", none⟩] none).defaultsSection.models := by
  refine ⟨?_, ?_, ?_⟩
  · exact ((model_field_shape [⟨"coder", "m1", some ["m2"], none, "primary", none⟩]
      none).2.1 _ (by decide)).2 ["m2"] rfl (by decide)
  · exact ((model_field_shape [⟨"scout", "m3", none, none, "primary", none⟩]
      none).2.1 _ (by decide)).1 (Or.inl rfl)
  · exact ((model_field_shape _ none).2.2.1 "m2").mpr
      (Or.inr ⟨⟨"coder", "m1", some ["m2"], none, "primary", none⟩, by decide, by decide⟩)

/-- Claim C4: a max_spawn_depth row of value_type integer whose value
parses as n yields maxSpawnDepth clamped to min 5 (max 1 n), and the value
9 yields 5. -/
theorem maxSpawnDepth_clamped (row : SystemConfigRow) (n : Int)
    (hk : row.key = "max_spawn_depth") (ht : row.value_type = "integer")
    (hp : parseIntJs row.value = some n) :
    (buildSystemDefaults [row]).maxSpawnDepth = some (min 5 (max 1 n)) ∧
    (buildSystemDefaults [⟨"max_spawn_depth", "9", "integer"⟩]).maxSpawnDepth = some 5 := by
  constructor
  · have hc : max 1 (min 5 n) = min 5 (max 1 n) := by omega
    simp [buildSystemDefaults, processConfigRow, hk, ht, hp, hc]
  · decide

/-- Witness for C4: instantiation at the spec scenario row with value 9. -/
theorem maxSpawnDepth_clamped_witness :
    (buildSystemDefaults [⟨"max_spawn_depth", "9", "integer"⟩]).maxSpawnDepth =
      some (min 5 (max 1 (9 : Int))) :=
  (maxSpawnDepth_clamped ⟨"max_spawn_depth", "9", "integer"⟩ 9 rfl rfl (by decide)).1

/-- Claim C5: buildSystemDefaults is a total function and a row with an
unrecognized key, a mismatched value_type, or an unparsable value
contributes nothing: removing it does not change the result, so one bad
row never blocks building the rest of the defaults. -/
theorem bad_row_skipped (pre post : List SystemConfigRow) (row : SystemConfigRow)
    (hbad : badConfigRow row) :
    buildSystemDefaults (pre ++ row :: post) = buildSystemDefaults (pre ++ post) := by
  rw [buildSystemDefaults, buildSystemDefaults, List.foldl_append, List.foldl_append,
    List.foldl_cons, processConfigRow_bad _ row hbad]

/-- Witness for C5: a concrete unrecognized-key row is a no-op. -/
theorem bad_row_skipped_witness :
    buildSystemDefaults [⟨"unknown_key", "7", "integer"⟩] = buildSystemDefaults [] :=
  bad_row_skipped [] [] ⟨"unknown_key", "7", "integer"⟩ (Or.inl ⟨by decide, by decide⟩)

/-- Claim C6: the full sync returns false and leaves the output unwritten
exactly when the newly serialized content equals the existing file content
byte for byte; otherwise — including when the file does not exist — it
writes the new content and returns true. -/
theorem sync_change_detection (agentRows : List AgentRow)
    (cfgRows : List SystemConfigRow) (existing : Option String) :
    (syncAgentsConfig agentRows cfgRows existing = (false, existing) ↔
      existing = some (newContentOf agentRows cfgRows)) ∧
    (existing ≠ some (newContentOf agentRows cfgRows) →
      syncAgentsConfig agentRows cfgRows existing =
        (true, some (newContentOf agentRows cfgRows))) := by
  rcases existing with _ | e
  · exact ⟨by simp [syncAgentsConfig], fun _ => rfl⟩
  · by_cases he : e = newContentOf agentRows cfgRows
    · subst he
      exact ⟨by simp [syncAgentsConfig], fun h => absurd rfl h⟩
    · exact ⟨by simp [syncAgentsConfig, he], fun _ => by simp [syncAgentsConfig, he]⟩

/-- Witness for C6: with no existing file the sync writes and reports a
change. -/
theorem sync_change_detection_witness :
    syncAgentsConfig [] [] none = (true, some (newContentOf [] [])) :=
  (sync_change_detection [] [] none).2 (by simp)

/-- Claim C7, counterexample: the polling query sorts by created_at, so
when creation timestamps disagree with ids the result is not in ascending
id order. -/
theorem listPending_id_order_counterexample :
    ¬ List.Pairwise (fun a b : ChatRow => a.id ≤ b.id)
      (listPending [⟨1, "mcp", "x", ["newhart"], 10⟩,
        ⟨2, "mcp", "y", ["newhart"], 5⟩] "newhart" 0) := by
  decide

/-- Claim C7 (amended): listPending never returns a message with id at or
below the cursor, returns every message addressed to the recipient with id
above the cursor, and returns the result ordered by creation timestamp
ascending (the query's ORDER BY created_at), not by id. -/
theorem listPending_cursor (table : List ChatRow) (recipient : String) (sinceId : Nat) :
    (∀ m ∈ listPending table recipient sinceId,
      sinceId < m.id ∧ recipient ∈ m.mentions) ∧
    (∀ m ∈ table, recipient ∈ m.mentions → sinceId < m.id →
      m ∈ listPending table recipient sinceId) ∧
    List.Pairwise (fun a b : ChatRow => a.created_at ≤ b.created_at)
      (listPending table recipient sinceId) := by
  refine ⟨?_, ?_, ?_⟩
  · intro m hm
    rw [listPending, mem_sortListBy, List.mem_filter] at hm
    have h2 := hm.2
    simp only [Bool.and_eq_true, decide_eq_true_eq] at h2
    exact ⟨h2.2, h2.1⟩
  · intro m hm h1 h2
    rw [listPending, mem_sortListBy, List.mem_filter]
    refine ⟨hm, ?_⟩
    simp [h1, h2]
  · refine (pairwise_sortListBy _ ?_ ?_ _).imp (fun h => by simpa using h)
    · intro a b c h1 h2
      simp only [decide_eq_true_eq] at h1 h2 ⊢
      omega
    · intro a b
      simp only [decide_eq_true_eq]
      omega

/-- Witness for C7 (amended): a qualifying concrete message is returned. -/
theorem listPending_cursor_witness :
    (⟨2, "mcp", "hello", ["newhart"], 5⟩ : ChatRow) ∈
      listPending [⟨1, "mcp", "old", ["newhart"], 1⟩,
        ⟨2, "mcp", "hello", ["newhart"], 5⟩] "newhart" 1 :=
  (listPending_cursor _ "newhart" 1).2.1 _ (by decide) (by decide) (by decide)

/-- Claim C8: the documented completion snippet re-runs its unconditional
UPDATE and its notify insert on a job that is already completed, so two
completeJob calls on the same job insert two notification messages — the
claimed at-most-one emission fails on the code as documented. -/
theorem completeJob_double_notification :
    (completeJob ⟨[⟨1, "newhart", "in_progress", some ["nova"], none, none⟩], []⟩
        1 "newhart" none none "Job 1 completed").jobs =
      [⟨1, "newhart", "completed", some ["nova"], none, none⟩] ∧
    (completeJob (completeJob ⟨[⟨1, "newhart", "in_progress", some ["nova"], none, none⟩], []⟩
        1 "newhart" none none "Job 1 completed")
        1 "newhart" none none "Job 1 completed").chat =
      [⟨"newhart", "Job 1 completed", ["nova"]⟩, ⟨"newhart", "Job 1 completed", ["nova"]⟩] :=
  ⟨by decide, by decide⟩

/-- Claim C9: no emitted entry carries a thinking field, even when the
row's thinking column is non-null. -/
theorem thinking_excluded (rows : List AgentRow) (sd : Option SystemDefaults) :
    ∀ e ∈ (buildAgentsJson rows sd).list, e.thinking = none := by
  intro e he
  rw [show (buildAgentsJson rows sd).list = rows.map buildEntry from rfl,
    List.mem_map] at he
  obtain ⟨r, _, rfl⟩ := he
  rfl

/-- Witness for C9: a row with a non-null thinking column still emits no
thinking field. -/
theorem thinking_excluded_witness :
    (buildEntry ⟨"quill", "m1", none, some "high", "primary", none⟩).thinking = none :=
  thinking_excluded [⟨"quill", "m1", none, some "high", "primary", none⟩] none _ (by decide)

/-- Claim C10: buildAgentsJson emits exactly one entry per row in input
order; an entry carries a subagents field exactly when allowed_subagents
is a non-empty array; and the document's defaults.subagents block is
present exactly when at least one of maxSpawnDepth or maxConcurrent was
successfully parsed, absent otherwise. -/
theorem omitted_when_empty (rows : List AgentRow) (cfgRows : List SystemConfigRow) :
    (buildAgentsJson rows (some (buildSystemDefaults cfgRows))).list =
      rows.map buildEntry ∧
    (buildAgentsJson rows (some (buildSystemDefaults cfgRows))).list.map
      AgentListEntry.id = rows.map AgentRow.name ∧
    (∀ row : AgentRow,
      ((buildEntry row).subagents.isSome ↔ 0 < (row.allowed_subagents.getD []).length)) ∧
    ((buildAgentsJson rows (some (buildSystemDefaults cfgRows))).defaultsSection.subagents.isSome ↔
      ((buildSystemDefaults cfgRows).maxSpawnDepth.isSome ∨
        (buildSystemDefaults cfgRows).maxConcurrent.isSome)) := by
  refine ⟨rfl, ?_, ?_, ?_⟩
  · rw [show (buildAgentsJson rows (some (buildSystemDefaults cfgRows))).list =
      rows.map buildEntry from rfl, List.map_map]
    rfl
  · intro row
    rcases hfb : row.allowed_subagents with _ | l
    · simp [buildEntry, hfb]
    · by_cases hlen : 0 < l.length
      · simp [buildEntry, hfb, hlen]
      · simp [buildEntry, hfb, hlen]
  · by_cases hc : ((buildSystemDefaults cfgRows).maxSpawnDepth.isSome ||
      (buildSystemDefaults cfgRows).maxConcurrent.isSome) = true
    · simp only [buildAgentsJson, hc, if_pos]
      simp only [Bool.or_eq_true] at hc
      simp [hc]
    · simp only [buildAgentsJson, hc, if_neg]
      simp only [Bool.or_eq_true, not_or, Bool.not_eq_true] at hc
      simp [hc.1, hc.2]

end NovaCognition
